import Mathlib

/-!
Verification development for the plotly graph-object core
(`plotly/graph_objs/graph_objs.py`, `plotly/graph_objs/graph_objs_tools.py`,
`plotly/graph_reference.py`).

The Python code implements a schema-validated nested container system:
`PlotlyDict` (a Keyed Node) and `PlotlyList` (an Indexed Node), constructed
from raw JSON-like data by `GraphObjectFactory.create`, with tree operations
`update`, `strip_style`, `get_data`, `force_clean` and layout subplot-key
inference.

The schema document (`GRAPH_REFERENCE`) is external data downloaded at run
time, and `graph_objs_tools.get_role` together with the generated per-object
classes (`get_class_create_args`) are code of the repository that is not part
of the provided sources.  Following the specification, those are modelled
abstractly: the embedding is parameterised by a `Schema` record providing the
valid-attribute sets, roles, array markers and trace names; a concrete
instance `plotlySchema` (modelled from the spec) is used for concrete claims.
-/

/-- Raw JSON-like value: the plain mappings/sequences/scalars accepted as
input by the Node Factory.  Mappings are insertion-ordered association
lists, mirroring Python dicts. -/
inductive JVal where
  | null
  | b (x : Bool)
  | i (x : Int)
  | s (x : String)
  | arr (xs : List JVal)
  | obj (xs : List (String × JVal))

/-- A value held inside the validated tree.  `raw` is a value stored verbatim
(role `data`/`style`/`info` scalars and their arrays, or src identifiers);
`pdict` is a `PlotlyDict` node carrying its schema name (`_name`) and ordered
entries; `plist` is a `PlotlyList` node carrying its schema name and ordered
elements.  Parent back-references are lookup-only relations in the source
(`__dict__['_parent']`) and do not affect any behaviour modelled here, so
they are not represented. -/
inductive GVal where
  | raw (v : JVal)
  | pdict (name : String) (entries : List (String × GVal))
  | plist (name : String) (elems : List GVal)

/-- One `PlotlyDict` entry: key and stored value. -/
abbrev Entry := String × GVal

/-- Error taxonomy of the source, by kind.  `dictKey` is
`PlotlyDictKeyError` (the spec's `UnknownAttributeError`), `dictValue` is
`PlotlyDictValueError`, `listEntry` is `PlotlyListEntryError` (also used for
the spec's `InvalidTypeTagError`); `tbd` is the plain
`Exception('tbd')` raised by `GraphObjectFactory.create` for names not in
`OBJECTS`; `typeError`/`keyError`/`attrError` are Python's built-in
`TypeError`/`KeyError`/`AttributeError`; `inputError` is
`exceptions.InputError` from src-id resolution. -/
inductive PErr where
  | dictKey (obj key : String)
  | dictValue (obj key : String)
  | listEntry (index : Nat)
  | typeError
  | keyError
  | attrError
  | inputError
  | tbd
deriving DecidableEq

/-- Which errors are `PlotlyGraphObjectError`s (the class caught by the
`except exceptions.PlotlyGraphObjectError` handlers in the source). -/
def PErr.isGraphObjectError : PErr → Bool
  | .dictKey _ _ => true
  | .dictValue _ _ => true
  | .listEntry _ => true
  | _ => false

/-- Python `dict` lookup on an insertion-ordered association list. -/
def lookupE (es : List Entry) (k : String) : Option GVal :=
  match es with
  | [] => none
  | (k', v) :: rest => if k' = k then some v else lookupE rest k

/-- Lookup in a raw JSON mapping (`value.get(key)`). -/
def lookupJ (xs : List (String × JVal)) (k : String) : Option JVal :=
  match xs with
  | [] => none
  | (k', v) :: rest => if k' = k then some v else lookupJ rest k

/-- Python `d[k] = v` on an insertion-ordered dict: replace in place if the
key exists, otherwise append at the end. -/
def setEntry (es : List Entry) (k : String) (v : GVal) : List Entry :=
  match es with
  | [] => [(k, v)]
  | (k', v') :: rest =>
      if k' = k then (k, v) :: rest else (k', v') :: setEntry rest k v

/-- Models `key.endswith('src')`. -/
def endsWithSrc (key : String) : Bool :=
  let l := key.toList
  decide (3 ≤ l.length) && decide (l.drop (l.length - 3) = ['s', 'r', 'c'])

/-- Models `key.rsplit('src', 1)[0]` for a key that ends in `'src'`: the key with
its final three characters removed (the rightmost occurrence of `'src'` in
such a key is its suffix). -/
def dropSrcSuffix (key : String) : String :=
  String.mk (key.toList.take (key.toList.length - 3))

/-- Models `PlotlyDict.is_src_key`: the key ends in `'src'` and the base name is
itself a declared valid attribute. -/
def isSrcKey (attrs : List String) (key : String) : Bool :=
  endsWithSrc key && decide (dropSrcSuffix key ∈ attrs)

/-- The maximal run of trailing decimal digits of a key (what the regex
`r'(?P<digits>\d+$)'` captures in `Layout._get_subplot_key`). -/
def trailingDigits (key : String) : List Char :=
  (key.toList.reverse.takeWhile Char.isDigit).reverse

/-- The key with its trailing digits removed (`key[:match.start()]`). -/
def subplotRoot (key : String) : String :=
  String.mk (key.toList.take (key.toList.length - (trailingDigits key).length))

/-- The hardcoded subplot root names of `Layout._get_subplot_key`. -/
def subplotKeyStrings : List String :=
  ["xaxis", "yaxis", "zaxis", "lataxis", "lonaxis",
   "radialaxis", "angularaxis", "geo", "scene"]

/-- The schema-derived context the tree code consults.  The schema document
itself is external data (downloaded `plot-schema.json`) and
`graph_objs_tools.get_role` plus the generated class table are repository
code not present in the sources, so — following the spec (sections 3, 4.1,
4.2) — they are modelled as an abstract record:

  * `objects`: the keys of `graph_reference.OBJECTS`;
  * `traceNames`: `graph_reference.TRACE_NAMES`;
  * `isArrayCreate name`: whether the generated class for `name` is a
    `PlotlyList` subclass (spec 4.2: array-typed object);
  * `items name`: the `_items` set of that list class;
  * `attrs name`: the `_attributes` set of the dict class for `name`;
  * `role name key value?`: `graph_objs_tools.get_role(node, key[, value])`.
    Modelled from the spec: a pure, side-effect-free function of the node's
    schema name, the key, and the optionally supplied value (spec 4.1, with
    the `arrayOk` upgrade folded into the value dependence);
  * `attributeIsArray attr parent`: `graph_reference.attribute_is_array`.

All general theorems below quantify over an arbitrary `Schema`. -/
structure Schema where
  objects : List String
  traceNames : List String
  isArrayCreate : String → Bool
  items : String → List String
  attrs : String → List String
  role : String → String → Option JVal → String
  attributeIsArray : String → String → Bool

/-- Models `Layout._get_subplot_key`: a key with a non-empty trailing digit run
whose root is a declared layout attribute with role `object`, whose digits
do not start with `'0'`, and whose root is one of the subplot strings. -/
def getSubplotKey (sc : Schema) (key : String) : Option String :=
  let digits := trailingDigits key
  if digits.isEmpty then none
  else
    let root := subplotRoot key
    if root ∈ sc.attrs "layout" then
      if sc.role "layout" root none = "object" && !(digits.headD ' ' = '0')
          && decide (root ∈ subplotKeyStrings) then
        some root
      else none
    else none

/-- Models `graph_objs_tools.assign_id_to_src`: a string value is used verbatim;
a non-string JSON value has no `id` property, so the `except` branch raises
`InputError`; the empty string reports `src_value.name` while formatting the
not-yet-uploaded message, which on a plain string raises `AttributeError`. -/
def assignIdToSrc (value : JVal) : Except PErr JVal :=
  match value with
  | .s str => if str = "" then .error .attrError else .ok (.s str)
  | _ => .error .inputError

/-- The tail of `Figure.__init__`: `if 'data' not in self: self.data = []`.
This is `PlotlyDict.__setitem__('data', [], _raise=True)` specialised to the
literal key `'data'` (which does not end in `'src'`) and the literal value
`[]`; the nested `GraphObjectFactory.create('data', [])` builds an empty
`Data` list.  Inlined here because it is not recursive. -/
def figurePostData (sc : Schema) (es : List Entry) : Except PErr (List Entry) :=
  if decide ("data" ∈ sc.attrs "figure") = false then
    .error (.dictKey "figure" "data")
  else if sc.role "figure" "data" none = "object" then
    if sc.attributeIsArray "data" "figure" then
      -- `[]` is a list, so `create('data', [])` runs: `Data([])` is empty.
      if decide ("data" ∈ sc.objects) then
        .ok (setEntry es "data" (.plist "data" []))
      else .error .tbd
    else
      -- `[]` is not a dict: PlotlyDictValueError.
      .error (.dictValue "figure" "data")
  else .ok (setEntry es "data" (.raw (.arr [])))

/-- Models `PlotlyDict.__setitem__(key, value, _raise)` specialised to a plain
string value.  A string is neither a `list` nor a `dict`, so in the
role-`object` branch `value_to_graph_object` fails without recursing into
the factory; this makes the function non-recursive.  Used for the
`self['type'] = self._name` preset in `PlotlyDict.__init__`. -/
def dictSetItemStr (sc : Schema) (selfName : String) (es : List Entry)
    (key : String) (str : String) (strict : Bool) : Except PErr (List Entry) :=
  if isSrcKey (sc.attrs selfName) key then
    match assignIdToSrc (.s str) with
    | .ok v => .ok (setEntry es key (.raw v))
    | .error e => .error e
  else if decide (key ∈ sc.attrs selfName) = false then
    if strict then .error (.dictKey selfName key) else .ok es
  else if sc.role selfName key none = "object" then
    if strict then .error (.dictValue selfName key) else .ok es
  else .ok (setEntry es key (.raw (.s str)))

mutual

/-- Models `GraphObjectFactory.create(object_name, value, _raise=strict)`: checks
membership in `OBJECTS`, then dispatches to the class for `object_name`:
the manually defined `Figure`, `Data` and `Layout`, a generated trace class
(a `PlotlyDict` that presets `self['type'] = self._name`), or a generated
generic `PlotlyList`/`PlotlyDict` class.  A dict class feeds `value`'s pairs
through validated writes; a list class rejects a mapping argument
(`PlotlyListEntryError`) and converts each element of a sequence. -/
def createGO (sc : Schema) (name : String) (arg : JVal) (strict : Bool) :
    Except PErr GVal :=
  if decide (name ∈ sc.objects) = false then .error .tbd
  else if name = "figure" then
    match arg with
    | .obj pairs =>
        match dictInitFold sc "figure" [] pairs strict with
        | .error e => .error e
        | .ok es =>
            if (lookupE es "data").isSome then .ok (.pdict "figure" es)
            else
              match figurePostData sc es with
              | .error e => .error e
              | .ok es' => .ok (.pdict "figure" es')
    | _ => .error .typeError
  else if name = "data" then
    match arg with
    | .obj _ => .error (.listEntry 0)
    | .arr xs =>
        match listInitFold sc "data" 0 [] xs strict with
        | .error e => .error e
        | .ok elems => .ok (.plist "data" elems)
    | _ => .error .typeError
  else if decide (name ∈ sc.traceNames) then
    match arg with
    | .obj pairs =>
        match dictSetItemStr sc name [] "type" name true with
        | .error e => .error e
        | .ok es0 =>
            match dictInitFold sc name es0 pairs strict with
            | .error e => .error e
            | .ok es => .ok (.pdict name es)
    | _ => .error .typeError
  else if name = "layout" ∨ sc.isArrayCreate name = false then
    match arg with
    | .obj pairs =>
        match dictInitFold sc name [] pairs strict with
        | .error e => .error e
        | .ok es => .ok (.pdict name es)
    | _ => .error .typeError
  else
    match arg with
    | .obj _ => .error (.listEntry 0)
    | .arr xs =>
        match listInitFold sc name 0 [] xs strict with
        | .error e => .error e
        | .ok elems => .ok (.plist name elems)
    | _ => .error .typeError
termination_by (sizeOf arg, 2, 0)

/-- The key/value loop of `PlotlyDict.__init__`: every pair goes through the
node's `__setitem__` (`Layout.__setitem__` when the node is a layout);
errors propagate (`err.prepare(); raise`). -/
def dictInitFold (sc : Schema) (selfName : String) (es : List Entry)
    (pairs : List (String × JVal)) (strict : Bool) : Except PErr (List Entry) :=
  match pairs with
  | [] => .ok es
  | (k, v) :: rest =>
      match (if selfName = "layout" then layoutSetItemGO sc es k v strict
             else dictSetItemGO sc selfName es k v strict) with
      | .error e => .error e
      | .ok es' => dictInitFold sc selfName es' rest strict
termination_by (sizeOf pairs, 1, 0)

/-- The element loop of `PlotlyList.__init__`: each raw element is converted
by the node's `value_to_graph_object` (the `Data` override for the trace
container, the generic one otherwise); a `None` result (suppressed failure)
is skipped, a graph object is appended; errors propagate. -/
def listInitFold (sc : Schema) (selfName : String) (idx : Nat)
    (acc : List GVal) (vals : List JVal) (strict : Bool) :
    Except PErr (List GVal) :=
  match vals with
  | [] => .ok acc
  | v :: rest =>
      match (if selfName = "data" then dataV2GO sc idx v strict
             else genericListV2GO sc selfName idx v strict) with
      | .error e => .error e
      | .ok none => listInitFold sc selfName (idx + 1) acc rest strict
      | .ok (some g) => listInitFold sc selfName (idx + 1) (acc ++ [g]) rest strict
termination_by (sizeOf vals, 1, 0)

/-- Models `PlotlyDict.__setitem__(key, value, _raise=strict)`.  Keys are modelled
as strings (the non-string branch raises `TypeError` / no-ops and is not
reachable from string-keyed JSON input).  Order of checks as in the source:
src keys are resolved and stored directly; undeclared keys raise
`PlotlyDictKeyError` in strict mode and no-op otherwise; role-`object` keys
are converted through the factory, a suppressed conversion failure leaving
the dict untouched; all other values are stored verbatim. -/
def dictSetItemGO (sc : Schema) (selfName : String) (es : List Entry)
    (key : String) (value : JVal) (strict : Bool) : Except PErr (List Entry) :=
  if isSrcKey (sc.attrs selfName) key then
    match assignIdToSrc value with
    | .ok v => .ok (setEntry es key (.raw v))
    | .error e => .error e
  else if decide (key ∈ sc.attrs selfName) = false then
    if strict then .error (.dictKey selfName key) else .ok es
  else if sc.role selfName key none = "object" then
    match dictV2GO sc selfName key value strict with
    | .error e => .error e
    | .ok none => .ok es
    | .ok (some g) => .ok (setEntry es key g)
  else .ok (setEntry es key (.raw value))
termination_by (sizeOf value, 5, 0)

/-- Models `Layout.__setitem__`: if the key matches the subplot pattern the value is
converted using the root name's schema and stored under the original
(numbered) key, a suppressed conversion failure writing nothing; otherwise
the generic `PlotlyDict.__setitem__` runs. -/
def layoutSetItemGO (sc : Schema) (es : List Entry) (key : String)
    (value : JVal) (strict : Bool) : Except PErr (List Entry) :=
  match getSubplotKey sc key with
  | none => dictSetItemGO sc "layout" es key value strict
  | some root =>
      match dictV2GO sc "layout" root value strict with
      | .error e => .error e
      | .ok (some g) => .ok (setEntry es key g)
      | .ok none => .ok es
termination_by (sizeOf value, 6, 0)

/-- Models `PlotlyDict.value_to_graph_object(key, value, _raise=strict)`: an
array-typed attribute requires a `list`, any other object attribute a
`dict`; a shape mismatch raises `PlotlyDictValueError` in strict mode and
returns `None` otherwise; on the right shape the factory runs (errors gain
path context and re-raise, which preserves their kind). -/
def dictV2GO (sc : Schema) (selfName : String) (key : String) (value : JVal)
    (strict : Bool) : Except PErr (Option GVal) :=
  if sc.attributeIsArray key selfName then
    match value with
    | .arr xs =>
        match createGO sc key (.arr xs) strict with
        | .error e => .error e
        | .ok g => .ok (some g)
    | _ => if strict then .error (.dictValue selfName key) else .ok none
  else
    match value with
    | .obj pairs =>
        match createGO sc key (.obj pairs) strict with
        | .error e => .error e
        | .ok g => .ok (some g)
    | _ => if strict then .error (.dictValue selfName key) else .ok none
termination_by (sizeOf value, 3, 0)

/-- Models `Data.value_to_graph_object(index, value, _raise=strict)`: the element
must be a `dict`; its `'type'` tag (default `'scatter'`) selects the trace
class.  A tag outside the permitted trace names raises
`PlotlyListEntryError` in strict mode; in non-strict mode the code falls
through to `GraphObjectFactory.create(item, _raise=False, **value)`, which
raises the plain `Exception('tbd')` whenever the tag is not in `OBJECTS`.
A non-string tag is likewise never in the trace-name set nor in `OBJECTS`. -/
def dataV2GO (sc : Schema) (idx : Nat) (value : JVal) (strict : Bool) :
    Except PErr (Option GVal) :=
  match value with
  | .obj pairs =>
      match (match lookupJ pairs "type" with
             | none => some "scatter"
             | some (.s t) => some t
             | some _ => none) with
      | some t =>
          if decide (t ∈ sc.traceNames) then
            match createGO sc t (.obj pairs) strict with
            | .error e => .error e
            | .ok g => .ok (some g)
          else if strict then .error (.listEntry idx)
          else
            match createGO sc t (.obj pairs) false with
            | .error e => .error e
            | .ok g => .ok (some g)
      | none =>
          if strict then .error (.listEntry idx)
          else .error .tbd
  | _ =>
      if strict then .error (.listEntry idx) else .ok none
termination_by (sizeOf value, 4, 0)

/-- Models `PlotlyList.value_to_graph_object(index, value, _raise=strict)`: the
element must be a `dict`; then each permitted item type is tried in turn,
a `PlotlyGraphObjectError` from a non-final candidate being swallowed; the
final candidate's graph error is raised only in strict mode (falling off
the loop returns `None`, i.e. the element is dropped). -/
def genericListV2GO (sc : Schema) (selfName : String) (idx : Nat)
    (value : JVal) (strict : Bool) : Except PErr (Option GVal) :=
  match value with
  | .obj pairs => tryItems sc (sc.items selfName) idx (.obj pairs) strict
  | _ =>
      if strict then .error (.listEntry idx) else .ok none
termination_by (sizeOf value, 4, 0)

/-- The `for i, item in enumerate(self._items, 1)` loop inside the generic
`value_to_graph_object` (keyword-argument call `create(item, **value)`;
for the dict-typed item classes of the schema this coincides with the
positional call modelled by `createGO`). -/
def tryItems (sc : Schema) (items : List String) (idx : Nat) (value : JVal)
    (strict : Bool) : Except PErr (Option GVal) :=
  match items with
  | [] => .ok none
  | item :: rest =>
      match createGO sc item value strict with
      | .ok g => .ok (some g)
      | .error e =>
          if e.isGraphObjectError then
            if rest.isEmpty then (if strict then .error e else .ok none)
            else tryItems sc rest idx value strict
          else .error e
termination_by (sizeOf value, 3, items.length)

end

/-- Models `GraphObjectFactory.create(object_name)` with no construction argument,
as used by `__missing__` default materialisation.  `Figure()` runs the
`self.data = []` tail; `Data()` and generated list classes are empty lists;
a trace class presets its `'type'` entry; other dict classes are empty. -/
def createEmpty (sc : Schema) (name : String) : Except PErr GVal :=
  if decide (name ∈ sc.objects) = false then .error .tbd
  else if name = "figure" then
    match figurePostData sc [] with
    | .error e => .error e
    | .ok es => .ok (.pdict "figure" es)
  else if name = "data" then .ok (.plist "data" [])
  else if decide (name ∈ sc.traceNames) then
    match dictSetItemStr sc name [] "type" name true with
    | .error e => .error e
    | .ok es => .ok (.pdict name es)
  else if name = "layout" ∨ sc.isArrayCreate name = false then
    .ok (.pdict name [])
  else .ok (.plist name [])

/-- Models `PlotlyDict.__missing__(key)`: a declared key of role `object` is lazily
materialised as an empty child of the correct type and stored (parent
attachment is not represented); any other key leaves the dict unchanged and
the method returns `None`. -/
def pdictMissing (sc : Schema) (selfName : String) (es : List Entry)
    (key : String) : Except PErr (List Entry) :=
  if decide (key ∈ sc.attrs selfName) then
    if sc.role selfName key none = "object" then
      match createEmpty sc key with
      | .error e => .error e
      | .ok g => .ok (setEntry es key g)
    else .ok es
  else .ok es

/-- Models `Layout.__missing__(key)`: a subplot-pattern key materialises an empty
node of the root name's type, stored under the original numbered key;
otherwise `PlotlyDict.__missing__` runs. -/
def layoutMissing (sc : Schema) (es : List Entry) (key : String) :
    Except PErr (List Entry) :=
  match getSubplotKey sc key with
  | none => pdictMissing sc "layout" es key
  | some root =>
      match createEmpty sc root with
      | .error e => .error e
      | .ok g => .ok (setEntry es key g)

/-- Models `PlotlyDict.__getitem__(key)` (inherited by `Layout`): a missing key
first goes through the node's `__missing__`; then `dict.__getitem__` runs,
which — because the class defines `__missing__` — returns the stored value
if the key is now present and otherwise returns the result of a second
`__missing__` call, i.e. Python `None`.  Reading a missing non-object key
therefore returns `None` rather than raising `KeyError`.  The result pairs
the read value (`none` models Python `None`) with the possibly-extended
entry list. -/
def dictGetItem (sc : Schema) (selfName : String) (es : List Entry)
    (key : String) : Except PErr (Option GVal × List Entry) :=
  match lookupE es key with
  | some v => .ok (some v, es)
  | none =>
      match (if selfName = "layout" then layoutMissing sc es key
             else pdictMissing sc selfName es key) with
      | .error e => .error e
      | .ok es' =>
          match lookupE es' key with
          | some v => .ok (some v, es')
          | none => .ok (none, es')

/-- Size bound for the `changes[index % len(changes)]` element pick. -/
theorem sizeOf_getD_lt (cs : List JVal) (i : Nat) :
    sizeOf (cs.getD i JVal.null) < 1 + sizeOf cs := by
  induction cs generalizing i with
  | nil => simp [List.getD]
  | cons x xs ih =>
      cases i with
      | zero => simp [List.getD]; omega
      | succ j =>
          have h := ih j
          simp [List.getD] at h ⊢
          omega

mutual

/-- Models `PlotlyDict.update(dict1)`: for each key/value pair of the update
mapping in order, an existing child node is updated recursively in place,
while any other situation routes the value through the node's validated
`__setitem__` (strict, since `update` passes no `_raise`). -/
def dictUpdateGO (sc : Schema) (selfName : String) (es : List Entry)
    (upd : List (String × JVal)) : Except PErr (List Entry) :=
  match upd with
  | [] => .ok es
  | (k, v) :: rest =>
      let step : Except PErr (List Entry) :=
        match lookupE es k with
        | some (.pdict n ces) =>
            match nodeUpdateGO sc (.pdict n ces) v with
            | .error e => .error e
            | .ok g' => .ok (setEntry es k g')
        | some (.plist n elems) =>
            match nodeUpdateGO sc (.plist n elems) v with
            | .error e => .error e
            | .ok g' => .ok (setEntry es k g')
        | _ =>
            if selfName = "layout" then layoutSetItemGO sc es k v true
            else dictSetItemGO sc selfName es k v true
      match step with
      | .error e => .error e
      | .ok es' => dictUpdateGO sc selfName es' rest
termination_by (sizeOf upd, 0, 0)

/-- Operation `update` dispatched on the node variant.  For a `PlotlyDict` the payload
must be a mapping (otherwise `dict1.items()` raises `AttributeError`).  For
a `PlotlyList`, `update(changes)` wraps a single mapping into a one-element
list — broadcasting it to every index — while a sequence of length `k`
cycles via `changes[index % k]`; an empty sequence hits `ZeroDivisionError`,
which is caught, skipping every index; any other payload fails on `len`. -/
def nodeUpdateGO (sc : Schema) (g : GVal) (v : JVal) : Except PErr GVal :=
  match g with
  | .raw w => .ok (.raw w)
  | .pdict n es =>
      match v with
      | .obj pairs =>
          match dictUpdateGO sc n es pairs with
          | .error e => .error e
          | .ok es' => .ok (.pdict n es')
      | _ => .error .attrError
  | .plist n elems =>
      match v with
      | .obj pairs =>
          match listUpdateBroadcast sc elems pairs with
          | .error e => .error e
          | .ok elems' => .ok (.plist n elems')
      | .arr cs =>
          if cs.isEmpty then .ok (.plist n elems)
          else
            match listUpdateCycle sc elems 0 cs with
            | .error e => .error e
            | .ok elems' => .ok (.plist n elems')
      | _ => .error .typeError
termination_by (sizeOf v, sizeOf g, 1)

/-- The element loop of `PlotlyList.update` when `changes` was a single
mapping: every element receives the same mapping (`changes[i % 1]`). -/
def listUpdateBroadcast (sc : Schema) (elems : List GVal)
    (pairs : List (String × JVal)) : Except PErr (List GVal) :=
  match elems with
  | [] => .ok []
  | e :: rest =>
      match nodeUpdateGO sc e (.obj pairs) with
      | .error err => .error err
      | .ok e' =>
          match listUpdateBroadcast sc rest pairs with
          | .error err => .error err
          | .ok rest' => .ok (e' :: rest')
termination_by (1 + sizeOf pairs, sizeOf elems, 0)

/-- The element loop of `PlotlyList.update` when `changes` was a sequence
`cs`: element `i` receives `cs[i % len(cs)]`. -/
def listUpdateCycle (sc : Schema) (elems : List GVal) (idx : Nat)
    (cs : List JVal) : Except PErr (List GVal) :=
  match elems with
  | [] => .ok []
  | e :: rest =>
      match nodeUpdateGO sc e (cs.getD (idx % cs.length) .null) with
      | .error err => .error err
      | .ok e' =>
          match listUpdateCycle sc rest (idx + 1) cs with
          | .error err => .error err
          | .ok rest' => .ok (e' :: rest')
termination_by (1 + sizeOf cs, sizeOf elems, 0)
decreasing_by
  all_goals first
    | decreasing_tactic
    | (apply Prod.Lex.left
       have h := sizeOf_getD_lt cs (idx % cs.length)
       simpa [List.getD] using h)

end

mutual

/-- The key loop of `PlotlyDict.strip_style` over a snapshot of the keys:
node values are stripped recursively in place; for other values the
resolved role is computed with the stored value, role-`style` keys are
deleted, and — independently — the legacy branch deletes `autosize` on a
node named `layout`.  When `autosize` has role `style` on a layout both
`del` statements run, the second raising `KeyError` on the now-missing
key. -/
def stripDictGO (sc : Schema) (selfName : String) (es : List Entry) :
    Except PErr (List Entry) :=
  match es with
  | [] => .ok []
  | (k, .pdict n ces) :: rest =>
      match stripDictGO sc n ces with
      | .error e => .error e
      | .ok ces' =>
          match stripDictGO sc selfName rest with
          | .error e => .error e
          | .ok rest' => .ok ((k, .pdict n ces') :: rest')
  | (k, .plist n elems) :: rest =>
      match stripListGO sc elems with
      | .error e => .error e
      | .ok elems' =>
          match stripDictGO sc selfName rest with
          | .error e => .error e
          | .ok rest' => .ok ((k, .plist n elems') :: rest')
  | (k, .raw v) :: rest =>
      if sc.role selfName k (some v) = "style" then
        if selfName = "layout" ∧ k = "autosize" then .error .keyError
        else stripDictGO sc selfName rest
      else if selfName = "layout" ∧ k = "autosize" then
        stripDictGO sc selfName rest
      else
        match stripDictGO sc selfName rest with
        | .error e => .error e
        | .ok rest' => .ok ((k, .raw v) :: rest')

/-- Models `PlotlyList.strip_style`: every element strips itself; elements survive
(a raw element would lack the method, raising `AttributeError`, but list
elements are always graph objects by construction). -/
def stripListGO (sc : Schema) (elems : List GVal) : Except PErr (List GVal) :=
  match elems with
  | [] => .ok []
  | .pdict n ces :: rest =>
      match stripDictGO sc n ces with
      | .error e => .error e
      | .ok ces' =>
          match stripListGO sc rest with
          | .error e => .error e
          | .ok rest' => .ok (.pdict n ces' :: rest')
  | .plist n elems2 :: rest =>
      match stripListGO sc elems2 with
      | .error e => .error e
      | .ok elems2' =>
          match stripListGO sc rest with
          | .error e => .error e
          | .ok rest' => .ok (.plist n elems2' :: rest')
  | .raw _ :: _ => .error .attrError

end

/-- Operation `strip_style` on a tree node (the public entry point). -/
def stripStyleGO (sc : Schema) (g : GVal) : Except PErr GVal :=
  match g with
  | .pdict n es =>
      match stripDictGO sc n es with
      | .error e => .error e
      | .ok es' => .ok (.pdict n es')
  | .plist n elems =>
      match stripListGO sc elems with
      | .error e => .error e
      | .ok elems' => .ok (.plist n elems')
  | .raw v => .ok (.raw v)

/-- Python `len` of a stored value (`len(item)` in the deletion loops).
`len` of a scalar raises `TypeError`; such items are unreachable in the
source's lists, and are modelled as non-empty (kept). -/
def gvalLen : GVal → Nat
  | .pdict _ es => es.length
  | .plist _ elems => elems.length
  | .raw (.arr xs) => xs.length
  | .raw (.obj xs) => xs.length
  | .raw _ => 1

/-- The source's two-pass deletion:
`del_indicies = [index for index, item in enumerate(self) if len(item) == 0]`
followed by `for index in del_indicies: del self[index - del_ct]; del_ct += 1`. -/
def delIndicesFold (l : List GVal) (idxs : List Nat) (ct : Nat) : List GVal :=
  match idxs with
  | [] => l
  | i :: rest => delIndicesFold (l.eraseIdx (i - ct)) rest (ct + 1)

/-- Deletion of the zero-length items of a list, exactly as the source's
index loop performs it. -/
def pyDeleteEmpties (l : List GVal) : List GVal :=
  delIndicesFold l
    ((List.range l.length).filter fun i => gvalLen (l.getD i (.raw .null)) = 0) 0

/-- Whether a raw JSON value is a zero-length container
(`isinstance(v, (dict, list)) and len(v) == 0`). -/
def jIsEmptyContainer : JVal → Bool
  | .arr [] => true
  | .obj [] => true
  | _ => false

mutual

/-- The collection loop of `PlotlyDict.get_data(flatten=False)`: node values
contribute their recursively collected data (mutating themselves in the
process); other values contribute themselves when their resolved role is
`data`, and additionally under the `name` key of a trace-named node.
Returns the collected pairs (before the empty-container deletion pass) and
the updated entries. -/
def dictGetDataGO (sc : Schema) (selfName : String) (es : List Entry) :
    List (String × JVal) × List Entry :=
  match es with
  | [] => ([], [])
  | (k, .pdict n ces) :: rest =>
      let sub := pdictGetData sc n ces
      let tail := dictGetDataGO sc selfName rest
      ((k, sub.1) :: tail.1, (k, .pdict n sub.2) :: tail.2)
  | (k, .plist n elems) :: rest =>
      let sub := plistGetData sc elems
      let tail := dictGetDataGO sc selfName rest
      ((k, sub.1) :: tail.1, (k, .plist n sub.2) :: tail.2)
  | (k, .raw v) :: rest =>
      let tail := dictGetDataGO sc selfName rest
      if sc.role selfName k (some v) = "data"
          ∨ (decide (selfName ∈ sc.traceNames) ∧ k = "name") then
        ((k, v) :: tail.1, (k, .raw v) :: tail.2)
      else (tail.1, (k, .raw v) :: tail.2)
termination_by (sizeOf es, 0)

/-- Models `PlotlyDict.get_data(flatten=False)`: the collected mapping with its
zero-length container values deleted, paired with the updated entries. -/
def pdictGetData (sc : Schema) (selfName : String) (es : List Entry) :
    JVal × List Entry :=
  let r := dictGetDataGO sc selfName es
  (.obj (r.1.filter fun kv => !jIsEmptyContainer kv.2), r.2)
termination_by (sizeOf es, 1)

/-- The collection loop of `PlotlyList.get_data(flatten=False)`: every
element contributes its data (a raw element would raise `AttributeError`;
unreachable, modelled as contributing itself). -/
def listGetDataGO (sc : Schema) (elems : List GVal) :
    List JVal × List GVal :=
  match elems with
  | [] => ([], [])
  | .pdict n ces :: rest =>
      let sub := pdictGetData sc n ces
      let tail := listGetDataGO sc rest
      (sub.1 :: tail.1, .pdict n sub.2 :: tail.2)
  | .plist n elems2 :: rest =>
      let sub := plistGetData sc elems2
      let tail := listGetDataGO sc rest
      (sub.1 :: tail.1, .plist n sub.2 :: tail.2)
  | .raw v :: rest =>
      let tail := listGetDataGO sc rest
      (v :: tail.1, .raw v :: tail.2)
termination_by (sizeOf elems, 0)

/-- Models `PlotlyList.get_data(flatten=False)`: the collected data list, while the
node itself drops every item whose post-collection length is zero. -/
def plistGetData (sc : Schema) (elems : List GVal) : JVal × List GVal :=
  let r := listGetDataGO sc elems
  (.arr r.1, pyDeleteEmpties r.2)
termination_by (sizeOf elems, 1)

end

/-- Models `Figure.get_data(flatten=False)`: `self.data.get_data(flatten=False)`.
The attribute read is `self['data']` with the full missing-key machinery;
a value without a `get_data` method (including Python `None` from a failed
lookup) raises `AttributeError`. -/
def figureGetData (sc : Schema) (es : List Entry) :
    Except PErr (JVal × List Entry) :=
  match dictGetItem sc "figure" es "data" with
  | .error e => .error e
  | .ok (some (.pdict n ces), es') =>
      let r := pdictGetData sc n ces
      .ok (r.1, setEntry es' "data" (.pdict n r.2))
  | .ok (some (.plist n elems), es') =>
      let r := plistGetData sc elems
      .ok (r.1, setEntry es' "data" (.plist n r.2))
  | .ok (some (.raw _), _) => .error .attrError
  | .ok (none, _) => .error .attrError

/-- Whether a stored value is Python `None`. -/
def gvalIsNone : GVal → Bool
  | .raw .null => true
  | _ => false

/-- Whether a stored value is a zero-length container
(`isinstance(self[key], (dict, list)) and len(self[key]) == 0`). -/
def gvalIsEmptyContainer : GVal → Bool
  | .pdict _ [] => true
  | .plist _ [] => true
  | .raw (.arr []) => true
  | .raw (.obj []) => true
  | _ => false

mutual

/-- The key loop of `PlotlyDict.force_clean`: each value cleans itself
(`AttributeError` from a raw value is swallowed), then zero-length
containers and `None` values are deleted.  Never raises. -/
def dictForceCleanGO (sc : Schema) (es : List Entry) : List Entry :=
  match es with
  | [] => []
  | (k, g) :: rest =>
      let g' :=
        match g with
        | .pdict n ces => .pdict n (dictForceCleanGO sc ces)
        | .plist n elems => .plist n (listForceCleanGO sc elems)
        | .raw v => .raw v
      let rest' := dictForceCleanGO sc rest
      if gvalIsEmptyContainer g' then rest'
      else if gvalIsNone g' then rest'
      else (k, g') :: rest'
termination_by (sizeOf es, 0)

/-- Models `PlotlyList.force_clean`: every element cleans itself, then items of
length zero are deleted by the source's index loop. -/
def listForceCleanGO (sc : Schema) (elems : List GVal) : List GVal :=
  pyDeleteEmpties (cleanElems sc elems)
termination_by (sizeOf elems, 1)

/-- The element loop of `PlotlyList.force_clean` (a raw element would raise
`AttributeError`; unreachable, modelled as unchanged). -/
def cleanElems (sc : Schema) (elems : List GVal) : List GVal :=
  match elems with
  | [] => []
  | .pdict n ces :: rest => .pdict n (dictForceCleanGO sc ces) :: cleanElems sc rest
  | .plist n elems2 :: rest => .plist n (listForceCleanGO sc elems2) :: cleanElems sc rest
  | .raw v :: rest => .raw v :: cleanElems sc rest
termination_by (sizeOf elems, 0)

end

/-- Operation `force_clean` on a tree node. -/
def forceCleanGO (sc : Schema) (g : GVal) : GVal :=
  match g with
  | .pdict n es => .pdict n (dictForceCleanGO sc es)
  | .plist n elems => .plist n (listForceCleanGO sc elems)
  | .raw v => .raw v

/-- Modelled from the spec: a concrete `Schema` instance reflecting the
facts the specification states about the real plot-schema — `bar` and
`scatter` are trace types; `figure` has object-role `data` (array-typed)
and `layout` children; `layout` declares the subplot roots `xaxis`/`yaxis`
with role `object`, plus `title`/`autosize` (role `info` — the autosize
branch of `strip_style` exists precisely because its declared role is no
longer `style`) and the style attribute `showlegend`; traces declare
data-role `x`/`y`, info-role `type`/`name`, an object-role `marker` and a
style-role `mode`; `marker` has style attributes `color` and `size`, where
`size` is `arrayOk` so a sequence value upgrades its role to `data`. -/
def plotlySchema : Schema where
  objects := ["figure", "data", "layout", "scatter", "bar", "marker",
              "xaxis", "yaxis"]
  traceNames := ["scatter", "bar"]
  isArrayCreate := fun _ => false
  items := fun _ => []
  attrs := fun name =>
    if name = "figure" then ["data", "layout"]
    else if name = "layout" then
      ["title", "autosize", "xaxis", "yaxis", "showlegend"]
    else if name = "scatter" then ["x", "y", "type", "name", "marker", "mode"]
    else if name = "bar" then ["x", "y", "type", "name", "marker"]
    else if name = "marker" then ["color", "size"]
    else if name = "xaxis" ∨ name = "yaxis" then ["title", "range"]
    else []
  role := fun name key value =>
    if name = "figure" then
      if key = "data" ∨ key = "layout" then "object" else ""
    else if name = "layout" then
      if key = "xaxis" ∨ key = "yaxis" then "object"
      else if key = "title" ∨ key = "autosize" then "info"
      else if key = "showlegend" then "style"
      else ""
    else if name = "scatter" ∨ name = "bar" then
      if key = "x" ∨ key = "y" then "data"
      else if key = "type" ∨ key = "name" then "info"
      else if key = "marker" then "object"
      else if key = "mode" then "style"
      else ""
    else if name = "marker" then
      if key = "size" then
        match value with
        | some (.arr _) => "data"
        | _ => "style"
      else if key = "color" then "style"
      else ""
    else if name = "xaxis" ∨ name = "yaxis" then
      if key = "title" then "style"
      else if key = "range" then "info"
      else ""
    else ""
  attributeIsArray := fun attr parent =>
    attr = "data" && parent = "figure"

/-- A variant of the modelled schema in which `layout`'s `autosize` is
declared with role `object` (and is a schema object), so that a layout can
legitimately store a tree node under `autosize`.  Claim C7 quantifies over
the declared role (`regardless of the role the schema declares`), so such
schemas are within its scope. -/
def schemaAutosizeObject : Schema :=
  { plotlySchema with
      objects := "autosize" :: plotlySchema.objects,
      role := fun name key value =>
        if name = "layout" ∧ key = "autosize" then "object"
        else plotlySchema.role name key value }

/-- A key is valid in a Keyed Node's schema context: it is a declared
attribute of the node's schema name, or — for a layout node, per spec
section 4.4 — it matches the dynamically recognised subplot pattern. -/
def contextValidKey (sc : Schema) (selfName key : String) : Prop :=
  key ∈ sc.attrs selfName ∨ (selfName = "layout" ∧ getSubplotKey sc key ≠ none)

instance (sc : Schema) (selfName key : String) :
    Decidable (contextValidKey sc selfName key) := by
  unfold contextValidKey; infer_instance

/-- The validated write on a Keyed Node, dispatched by the node's class
(`Layout.__setitem__` for layout nodes, `PlotlyDict.__setitem__`
otherwise) — the same dispatch `PlotlyDict.__init__` performs. -/
def nodeSetItem (sc : Schema) (selfName : String) (es : List Entry)
    (key : String) (value : JVal) (strict : Bool) : Except PErr (List Entry) :=
  if selfName = "layout" then layoutSetItemGO sc es key value strict
  else dictSetItemGO sc selfName es key value strict

/-- Whether a JSON value is a plain mapping. -/
def jIsMapping : JVal → Bool
  | .obj _ => true
  | _ => false

mutual

/-- Modelled from the spec (4.5 Get data, 8.1): the pure role-`data` subset
of a Keyed Node's entries — in key order, a child node contributes its own
subset, a plain value is kept exactly when its resolved role is `data` or
the node is trace-named and the key is `name`.  The empty-container drop is
applied by `specDataDict` below. -/
def specDataEntries (sc : Schema) (selfName : String) (es : List Entry) :
    List (String × JVal) :=
  match es with
  | [] => []
  | (k, .pdict n ces) :: rest =>
      (k, specDataDict sc n ces) :: specDataEntries sc selfName rest
  | (k, .plist _n elems) :: rest =>
      (k, specDataList sc elems) :: specDataEntries sc selfName rest
  | (k, .raw v) :: rest =>
      if sc.role selfName k (some v) = "data"
          ∨ (decide (selfName ∈ sc.traceNames) ∧ k = "name") then
        (k, v) :: specDataEntries sc selfName rest
      else specDataEntries sc selfName rest
termination_by (sizeOf es, 0)

/-- Modelled from the spec: the role-`data` subset of a Keyed Node as a
plain mapping, with keys whose remaining value is an empty container
dropped. -/
def specDataDict (sc : Schema) (selfName : String) (es : List Entry) : JVal :=
  .obj ((specDataEntries sc selfName es).filter fun kv =>
    !jIsEmptyContainer kv.2)
termination_by (sizeOf es, 1)

/-- Modelled from the spec, adjusted exactly where the C2 counterexample
forces it: an Indexed Node's role-`data` subset is the sequence of its
elements' subsets in order — an element whose whole subset is an empty
mapping still contributes that empty mapping (the source deletes the
element from the node instead of dropping it from the result). -/
def specDataElems (sc : Schema) (elems : List GVal) : List JVal :=
  match elems with
  | [] => []
  | .pdict n ces :: rest => specDataDict sc n ces :: specDataElems sc rest
  | .plist _n elems2 :: rest =>
      specDataList sc elems2 :: specDataElems sc rest
  | .raw v :: rest => v :: specDataElems sc rest
termination_by (sizeOf elems, 0)

/-- Modelled from the spec: an Indexed Node's role-`data` subset as a plain
sequence. -/
def specDataList (sc : Schema) (elems : List GVal) : JVal :=
  .arr (specDataElems sc elems)
termination_by (sizeOf elems, 1)

end

/-- C1: writing a string key that is neither valid in the Keyed Node's
schema context (declared attribute, or layout subplot inference per spec
4.4) nor a src-suffixed form of a declared attribute raises
`PlotlyDictKeyError` (`UnknownAttributeError`) in strict mode and is a
silent no-op in non-strict mode; in both modes the entries are unchanged. -/
theorem validated_write_unknown_key (sc : Schema) (selfName : String)
    (es : List Entry) (key : String) (value : JVal)
    (hvalid : ¬ contextValidKey sc selfName key)
    (hsrc : isSrcKey (sc.attrs selfName) key = false) :
    nodeSetItem sc selfName es key value true = .error (.dictKey selfName key) ∧
    nodeSetItem sc selfName es key value false = .ok es := by
  rw [contextValidKey] at hvalid
  push_neg at hvalid
  have hmem : decide (key ∈ sc.attrs selfName) = false := by
    simp [hvalid.1]
  constructor <;>
    · rw [nodeSetItem]
      by_cases hl : selfName = "layout"
      · subst hl
        have hsp : getSubplotKey sc key = none := hvalid.2 rfl
        simp [layoutSetItemGO, hsp, dictSetItemGO, hsrc, hmem]
      · simp [hl, dictSetItemGO, hsrc, hmem]

theorem validated_write_unknown_key_witness :
    nodeSetItem plotlySchema "scatter" [("x", .raw (.i 1))] "bogus_key"
        (.i 7) true = .error (.dictKey "scatter" "bogus_key") ∧
    nodeSetItem plotlySchema "scatter" [("x", .raw (.i 1))] "bogus_key"
        (.i 7) false = .ok [("x", .raw (.i 1))] :=
  validated_write_unknown_key plotlySchema "scatter" [("x", .raw (.i 1))]
    "bogus_key" (.i 7) (by decide) (by decide)

/-- C3 counterexample: reading the missing key `"yaxis01"` on an empty
layout does not raise — `Layout.__missing__` declines the leading-zero key,
`PlotlyDict.__missing__` stores nothing, and the `dict.__missing__` protocol
makes the read return Python `None` with the node unchanged.  The claim
asserts this read raises `UnknownAttributeError`; it raises nothing. -/
theorem layout_read_leading_zero_no_error :
    dictGetItem plotlySchema "layout" [] "yaxis01" = .ok (none, []) := by
  simp [dictGetItem, layoutMissing, getSubplotKey, plotlySchema, createEmpty,
        trailingDigits, subplotRoot, subplotKeyStrings, lookupE, setEntry,
        pdictMissing]

/-- C3 amended: on an empty layout, reading `"yaxis2"` auto-creates, stores
under `"yaxis2"`, and returns an empty `yaxis`-typed Keyed Node; reading
`"yaxis01"` is not inferred (leading zero) and instead silently returns
`None`, storing nothing and raising nothing. -/
theorem layout_subplot_read_inference :
    dictGetItem plotlySchema "layout" [] "yaxis2" =
      .ok (some (.pdict "yaxis" []), [("yaxis2", .pdict "yaxis" [])]) ∧
    dictGetItem plotlySchema "layout" [] "yaxis01" = .ok (none, []) := by
  constructor <;>
    simp [dictGetItem, layoutMissing, getSubplotKey, plotlySchema, createEmpty,
          trailingDigits, subplotRoot, subplotKeyStrings, lookupE, setEntry,
          pdictMissing]

/-- C9 counterexample: a `Figure` constructed with no arguments contains
the `"data"` key only — `Figure.__init__` adds `data` when absent but never
adds `layout`, so the claim's `"contains both"` fails for `"layout"`. -/
theorem figure_no_layout_eagerly :
    createGO plotlySchema "figure" (.obj []) true =
      .ok (.pdict "figure" [("data", .plist "data" [])]) ∧
    lookupE [("data", .plist "data" [])] "layout" = none := by
  constructor
  · simp [createGO, dictInitFold, figurePostData, plotlySchema, lookupE,
          setEntry]
  · simp [lookupE]

theorem lookupE_setEntry_self (es : List Entry) (k : String) (v : GVal) :
    lookupE (setEntry es k v) k = some v := by
  induction es with
  | nil => simp [setEntry, lookupE]
  | cons e rest ih =>
      obtain ⟨k', v'⟩ := e
      by_cases hk : k' = k
      · simp [setEntry, hk, lookupE]
      · simp [setEntry, hk, lookupE, ih]

theorem figurePostData_has_data (sc : Schema) (es es' : List Entry)
    (h : figurePostData sc es = .ok es') : (lookupE es' "data").isSome := by
  rw [figurePostData] at h
  split at h
  · exact absurd h (by simp)
  · split at h
    · split at h
      · split at h
        · simp at h
          subst h
          simp [lookupE_setEntry_self]
        · exact absurd h (by simp)
      · exact absurd h (by simp)
    · simp at h
      subst h
      simp [lookupE_setEntry_self]

/-- C9 amended: every successfully constructed `Figure` contains the
`"data"` key (`Figure.__init__` adds an empty `Data` — whose permitted
item-type set is the trace names — when the input lacks one); the
`"layout"` key is not eagerly present and only materialises on access. -/
theorem figure_always_has_data (sc : Schema) (arg : JVal) (strict : Bool)
    (n : String) (es : List Entry)
    (h : createGO sc "figure" arg strict = .ok (.pdict n es)) :
    (lookupE es "data").isSome := by
  rw [createGO.eq_def] at h
  by_cases hobj : decide ("figure" ∈ sc.objects) = false
  · rw [if_pos hobj] at h
    exact absurd h (by simp)
  · rw [if_neg hobj, if_pos rfl] at h
    cases arg with
    | obj pairs =>
        simp only [show (match (JVal.obj pairs : JVal) with
            | JVal.obj pairs => true | _ => false) = true from rfl] at h ⊢
        rcases hDI : dictInitFold sc "figure" [] pairs strict with e | es0 <;>
          simp only [hDI] at h
        · exact absurd h (by simp)
        · by_cases hd : (lookupE es0 "data").isSome
          · rw [if_pos hd] at h
            simp at h
            rw [← h.2]
            exact hd
          · rw [if_neg hd] at h
            rcases hFP : figurePostData sc es0 with e | es1 <;>
              simp only [hFP] at h
            · exact absurd h (by simp)
            · simp at h
              rw [← h.2]
              exact figurePostData_has_data sc es0 es1 hFP
    | null => exact absurd h (by simp)
    | b x => exact absurd h (by simp)
    | i x => exact absurd h (by simp)
    | s x => exact absurd h (by simp)
    | arr xs => exact absurd h (by simp)

theorem figure_always_has_data_witness :
    (lookupE [("data", GVal.plist "data" [])] "data").isSome :=
  figure_always_has_data plotlySchema (.obj []) true "figure"
    [("data", .plist "data" [])]
    (by simp [createGO, dictInitFold, figurePostData, plotlySchema, lookupE,
              setEntry])

/-- C4: constructing `Data` from a list with an element tagged
`"type": "bar"` yields one item whose schema name is `bar`; an element
with no `"type"` key dispatches as `scatter`; an unknown tag raises
`PlotlyListEntryError` (the `InvalidTypeTagError` kind) identifying index 0
in strict mode; and — the bug — in non-strict mode the element is not
silently skipped: the factory raises the plain uncaught `Exception('tbd')`,
contradicting `value_to_graph_object`'s documented contract that with
`_raise=False` it `won't raise`. -/
theorem data_type_dispatch :
    createGO plotlySchema "data"
        (.arr [.obj [("x", .arr [.i 1, .i 2]), ("y", .arr [.i 3, .i 4]),
                     ("type", .s "bar")]]) true =
      .ok (.plist "data" [.pdict "bar"
            [("type", .raw (.s "bar")), ("x", .raw (.arr [.i 1, .i 2])),
             ("y", .raw (.arr [.i 3, .i 4]))]]) ∧
    createGO plotlySchema "data" (.arr [.obj [("x", .arr [.i 1])]]) true =
      .ok (.plist "data" [.pdict "scatter"
            [("type", .raw (.s "scatter")), ("x", .raw (.arr [.i 1]))]]) ∧
    createGO plotlySchema "data" (.arr [.obj [("type", .s "not_a_real_type")]])
        true = .error (.listEntry 0) ∧
    createGO plotlySchema "data" (.arr [.obj [("type", .s "not_a_real_type")]])
        false = .error .tbd := by
  have hObjs : plotlySchema.objects =
      ["figure", "data", "layout", "scatter", "bar", "marker",
       "xaxis", "yaxis"] := rfl
  have hTr : plotlySchema.traceNames = ["scatter", "bar"] := rfl
  have hIAC : ∀ s, plotlySchema.isArrayCreate s = false := fun _ => rfl
  have hAB : plotlySchema.attrs "bar" = ["x", "y", "type", "name", "marker"] :=
    rfl
  have hAS : plotlySchema.attrs "scatter" =
      ["x", "y", "type", "name", "marker", "mode"] := rfl
  have hSB1 : isSrcKey ["x", "y", "type", "name", "marker"] "x" = false := by
    decide
  have hSB2 : isSrcKey ["x", "y", "type", "name", "marker"] "y" = false := by
    decide
  have hSB3 : isSrcKey ["x", "y", "type", "name", "marker"] "type" = false := by
    decide
  have hSS1 : isSrcKey ["x", "y", "type", "name", "marker", "mode"] "x" =
      false := by decide
  have hSS2 : isSrcKey ["x", "y", "type", "name", "marker", "mode"] "type" =
      false := by decide
  have hRB1 : ∀ v, plotlySchema.role "bar" "x" v = "data" := fun _ => rfl
  have hRB2 : ∀ v, plotlySchema.role "bar" "y" v = "data" := fun _ => rfl
  have hRB3 : ∀ v, plotlySchema.role "bar" "type" v = "info" := fun _ => rfl
  have hRS1 : ∀ v, plotlySchema.role "scatter" "x" v = "data" := fun _ => rfl
  have hRS3 : ∀ v, plotlySchema.role "scatter" "type" v = "info" :=
    fun _ => rfl
  refine ⟨?_, ?_, ?_, ?_⟩ <;>
    · simp only [createGO, listInitFold, dataV2GO, dictInitFold, dictSetItemGO,
                 dictSetItemStr, lookupJ, lookupE, setEntry, hObjs, hTr, hIAC,
                 hAB, hAS, hSB1, hSB2, hSB3, hSS1, hSS2, hRB1, hRB2, hRB3,
                 hRS1, hRS3]
      simp [createGO, listInitFold, dataV2GO, dictInitFold, dictSetItemGO,
            dictSetItemStr, lookupJ, lookupE, setEntry, hObjs, hTr, hIAC, hAB,
            hAS, hSB1, hSB2, hSB3, hSS1, hSS2, hRB1, hRB2, hRB3, hRS1, hRS3]

theorem listUpdateCycle_spec (sc : Schema) (cs : List JVal) :
    ∀ (elems elems' : List GVal) (idx : Nat),
      listUpdateCycle sc elems idx cs = .ok elems' →
      elems'.length = elems.length ∧
      ∀ i, i < elems.length →
        nodeUpdateGO sc (elems.getD i (.raw .null))
            (cs.getD ((idx + i) % cs.length) .null) =
          .ok (elems'.getD i (.raw .null)) := by
  intro elems
  induction elems with
  | nil =>
      intro elems' idx h
      rw [listUpdateCycle] at h
      simp at h
      subst h
      exact ⟨rfl, fun i hi => absurd hi (by simp)⟩
  | cons e rest ih =>
      intro elems' idx h
      rw [listUpdateCycle] at h
      rcases hU : nodeUpdateGO sc e (cs.getD (idx % cs.length) .null)
        with err | e' <;> simp only [hU] at h
      · exact absurd h (by simp)
      · rcases hR : listUpdateCycle sc rest (idx + 1) cs
          with err | rest' <;> simp only [hR] at h
        · exact absurd h (by simp)
        · simp at h
          subst h
          obtain ⟨hlen, hall⟩ := ih rest' (idx + 1) hR
          refine ⟨by simp [hlen], ?_⟩
          intro i hi
          cases i with
          | zero => simpa using hU
          | succ j =>
              have hj := hall j (by simpa using hi)
              have harith : idx + 1 + j = idx + (j + 1) := by omega
              rw [harith] at hj
              simpa using hj

/-- C5: deep update on an Indexed Node of length `n` with a non-empty list
of `k` update mappings applies update element `i mod k` to the item at
index `i`, for every index `i < n`, and preserves the length. -/
theorem deep_update_cycles (sc : Schema) (n : String)
    (elems elems' : List GVal) (cs : List JVal) (hk : cs ≠ [])
    (h : nodeUpdateGO sc (.plist n elems) (.arr cs) = .ok (.plist n elems')) :
    elems'.length = elems.length ∧
    ∀ i, i < elems.length →
      nodeUpdateGO sc (elems.getD i (.raw .null))
          (cs.getD (i % cs.length) .null) =
        .ok (elems'.getD i (.raw .null)) := by
  rw [nodeUpdateGO.eq_def] at h
  have hne : cs.isEmpty = false := by
    cases cs
    · exact absurd rfl hk
    · rfl
  simp only [hne] at h
  rcases hC : listUpdateCycle sc elems 0 cs with err | res <;>
    simp only [hC] at h
  · exact absurd h (by simp)
  · simp at h
    obtain ⟨spec1, spec2⟩ := listUpdateCycle_spec sc cs elems res 0 hC
    rw [← h]
    refine ⟨spec1, ?_⟩
    intro i hi
    have := spec2 i hi
    simpa using this

theorem deep_update_cycles_witness :
    nodeUpdateGO plotlySchema
        ([GVal.pdict "scatter" [], GVal.pdict "scatter" [],
          GVal.pdict "scatter" [], GVal.pdict "scatter" []].getD 2 (.raw .null))
        ([JVal.obj [("name", .s "A")], JVal.obj [("name", .s "B")]].getD
          (2 % 2) .null) =
      .ok ([GVal.pdict "scatter" [("name", .raw (.s "A"))],
            GVal.pdict "scatter" [("name", .raw (.s "B"))],
            GVal.pdict "scatter" [("name", .raw (.s "A"))],
            GVal.pdict "scatter" [("name", .raw (.s "B"))]].getD 2
             (.raw .null)) := by
  refine (deep_update_cycles plotlySchema "data"
    [GVal.pdict "scatter" [], GVal.pdict "scatter" [],
     GVal.pdict "scatter" [], GVal.pdict "scatter" []]
    [GVal.pdict "scatter" [("name", .raw (.s "A"))],
     GVal.pdict "scatter" [("name", .raw (.s "B"))],
     GVal.pdict "scatter" [("name", .raw (.s "A"))],
     GVal.pdict "scatter" [("name", .raw (.s "B"))]]
    [JVal.obj [("name", .s "A")], JVal.obj [("name", .s "B")]]
    (by simp) ?_).2 2 (by simp)
  have h1 : ∀ v, plotlySchema.role "scatter" "name" v = "info" := fun _ => rfl
  have h2 : plotlySchema.attrs "scatter" =
      ["x", "y", "type", "name", "marker", "mode"] := rfl
  have h3 : isSrcKey ["x", "y", "type", "name", "marker", "mode"] "name" =
      false := by decide
  simp only [nodeUpdateGO, listUpdateCycle, dictUpdateGO, dictSetItemGO,
             lookupE, setEntry, h1, h2, h3, List.getD, List.get?,
             List.isEmpty, List.length]
  simp [nodeUpdateGO, dictUpdateGO, dictSetItemGO, lookupE, setEntry, h1, h2,
        h3]

/-- C7 counterexample: the claim quantifies over the declared role
(`regardless of the role the schema declares ... and regardless of the
value stored there`), but when the schema declares `autosize` with role
`object`, the layout stores a tree node there, `strip_style` takes the
node branch (recursing instead of deleting), and `autosize` survives. -/
theorem strip_style_autosize_node_kept :
    createGO schemaAutosizeObject "layout" (.obj [("autosize", .obj [])])
        true = .ok (.pdict "layout" [("autosize", .pdict "autosize" [])]) ∧
    stripStyleGO schemaAutosizeObject
        (.pdict "layout" [("autosize", .pdict "autosize" [])]) =
      .ok (.pdict "layout" [("autosize", .pdict "autosize" [])]) ∧
    lookupE [("autosize", .pdict "autosize" [])] "autosize" =
      some (.pdict "autosize" []) := by
  refine ⟨?_, ?_, ?_⟩
  · simp [createGO, dictInitFold, layoutSetItemGO, getSubplotKey,
          trailingDigits, dictSetItemGO, dictV2GO, schemaAutosizeObject,
          plotlySchema, isSrcKey, endsWithSrc, dropSrcSuffix, setEntry,
          lookupE]
  · simp [stripStyleGO, stripDictGO]
  · simp [lookupE]

/-- C7 amended: on a Keyed Node named `layout` whose `autosize` entries all
hold non-node values, a `strip_style` call that succeeds always removes the
`autosize` key, whatever role the schema resolves (a `style` role would
make the call raise `KeyError` instead of succeeding, since both `del`
statements run); only a node-valued `autosize` survives stripping. -/
theorem strip_style_removes_raw_autosize (sc : Schema) (es es' : List Entry)
    (hraw : ∀ g, ("autosize", g) ∈ es → ∃ v, g = GVal.raw v)
    (h : stripDictGO sc "layout" es = .ok es') :
    lookupE es' "autosize" = none := by
  induction es generalizing es' with
  | nil =>
      rw [stripDictGO] at h
      simp at h
      subst h
      simp [lookupE]
  | cons e rest ih =>
      obtain ⟨k, g⟩ := e
      by_cases hk : k = "autosize"
      · subst hk
        obtain ⟨v, rfl⟩ := hraw g (by simp)
        rw [stripDictGO] at h
        by_cases hrole : sc.role "layout" "autosize" (some v) = "style"
        · simp [hrole] at h
        · simp only [hrole, if_false, if_true, and_self, reduceIte] at h
          exact ih _ (fun g hg => hraw g (List.mem_cons_of_mem _ hg)) h
      · cases g with
        | pdict n2 ces =>
            rw [stripDictGO] at h
            rcases h1 : stripDictGO sc n2 ces with e1 | ces' <;>
              simp only [h1] at h
            · exact absurd h (by simp)
            · rcases h2 : stripDictGO sc "layout" rest with e2 | rest' <;>
                simp only [h2] at h
              · exact absurd h (by simp)
              · simp at h
                subst h
                simp only [lookupE, hk, if_false]
                exact ih _ (fun g hg => hraw g (List.mem_cons_of_mem _ hg)) h2
        | plist n2 elems =>
            rw [stripDictGO] at h
            rcases h1 : stripListGO sc elems with e1 | elems' <;>
              simp only [h1] at h
            · exact absurd h (by simp)
            · rcases h2 : stripDictGO sc "layout" rest with e2 | rest' <;>
                simp only [h2] at h
              · exact absurd h (by simp)
              · simp at h
                subst h
                simp only [lookupE, hk, if_false]
                exact ih _ (fun g hg => hraw g (List.mem_cons_of_mem _ hg)) h2
        | raw v =>
            rw [stripDictGO] at h
            simp only [hk, and_false, reduceIte] at h
            by_cases hrole : sc.role "layout" k (some v) = "style"
            · rw [if_pos hrole] at h
              exact ih _ (fun g hg => hraw g (List.mem_cons_of_mem _ hg)) h
            · rw [if_neg hrole] at h
              rcases h2 : stripDictGO sc "layout" rest with e2 | rest' <;>
                simp only [h2] at h
              · exact absurd h (by simp)
              · simp at h
                subst h
                simp only [lookupE, hk, if_false]
                exact ih _ (fun g hg => hraw g (List.mem_cons_of_mem _ hg)) h2

theorem strip_style_removes_raw_autosize_witness :
    lookupE [] "autosize" = none :=
  strip_style_removes_raw_autosize plotlySchema
    [("autosize", GVal.raw (.b true))] []
    (by
      intro g hg
      simp at hg
      exact ⟨.b true, hg⟩)
    (by simp [stripDictGO, plotlySchema])

theorem dictForceCleanGO_cons (sc : Schema) (k' : String) (g0 : GVal)
    (rest : List Entry) :
    dictForceCleanGO sc ((k', g0) :: rest) =
      (if gvalIsEmptyContainer (forceCleanGO sc g0) then
        dictForceCleanGO sc rest
      else if gvalIsNone (forceCleanGO sc g0) then dictForceCleanGO sc rest
      else (k', forceCleanGO sc g0) :: dictForceCleanGO sc rest) := by
  cases g0 <;> rw [dictForceCleanGO] <;> simp [forceCleanGO]

theorem forceClean_survivors (sc : Schema) :
    ∀ (es : List Entry) (k : String) (g : GVal),
      lookupE (dictForceCleanGO sc es) k = some g →
      gvalIsNone g = false ∧ gvalIsEmptyContainer g = false := by
  intro es
  induction es with
  | nil =>
      intro k g h
      rw [dictForceCleanGO] at h
      simp [lookupE] at h
  | cons e rest ih =>
      obtain ⟨k', g0⟩ := e
      intro k g h
      rw [dictForceCleanGO_cons] at h
      by_cases hE : gvalIsEmptyContainer (forceCleanGO sc g0)
      · rw [if_pos hE] at h
        exact ih k g h
      · rw [if_neg hE] at h
        by_cases hN : gvalIsNone (forceCleanGO sc g0)
        · rw [if_pos hN] at h
          exact ih k g h
        · rw [if_neg hN] at h
          by_cases hk : k' = k
          · simp only [lookupE, hk, if_pos rfl] at h
            rw [← Option.some_inj.mp h]
            constructor
            · exact Bool.eq_false_iff.mpr hN
            · exact Bool.eq_false_iff.mpr hE
          · simp only [lookupE, hk, if_false, reduceIte] at h
            exact ih k g h

/-- C8: `force_clean` deletes every `None`-valued key and every key holding
a zero-length container, bottom-up — a child emptied by the recursive
cleanup is deleted at its parent's level.  First two conjuncts: the claim's
concrete instance (`{"a": {}, "b": None, "c": 1}` keeps exactly `{"c": 1}`)
and a bottom-up instance where `{"m": {"x": None}}` cleans to `{}`.  Third
conjunct: no surviving key of any cleaned Keyed Node holds `None` or a
zero-length container. -/
theorem force_clean_drops_empties_and_nulls :
    dictForceCleanGO plotlySchema
        [("a", .pdict "marker" []), ("b", .raw .null), ("c", .raw (.i 1))] =
      [("c", .raw (.i 1))] ∧
    dictForceCleanGO plotlySchema
        [("m", .pdict "marker" [("x", .raw .null)])] = [] ∧
    (∀ (sc : Schema) (es : List Entry) (k : String) (g : GVal),
      lookupE (dictForceCleanGO sc es) k = some g →
      gvalIsNone g = false ∧ gvalIsEmptyContainer g = false) := by
  refine ⟨?_, ?_, forceClean_survivors⟩
  · simp [dictForceCleanGO, gvalIsNone, gvalIsEmptyContainer]
  · simp [dictForceCleanGO, gvalIsNone, gvalIsEmptyContainer]

theorem force_clean_drops_empties_and_nulls_witness :
    gvalIsNone (.raw (.i 1)) = false ∧
    gvalIsEmptyContainer (.raw (.i 1)) = false :=
  force_clean_drops_empties_and_nulls.2.2 plotlySchema
    [("c", .raw (.i 1))] "c" (.raw (.i 1))
    (by simp [dictForceCleanGO, gvalIsNone, gvalIsEmptyContainer, lookupE])

theorem delIndicesFold_succ (idxs : List Nat) :
    ∀ (l : List GVal) (ct : Nat),
      delIndicesFold l (idxs.map Nat.succ) (ct + 1) = delIndicesFold l idxs ct := by
  induction idxs with
  | nil => intro l ct; rfl
  | cons i rest ih =>
      intro l ct
      simp only [List.map_cons, delIndicesFold, Nat.succ_sub_succ]
      exact ih (l.eraseIdx (i - ct)) (ct + 1)

theorem delIndicesFold_shift (idxs : List Nat) :
    ∀ (x : GVal) (xs : List GVal) (ct : Nat),
      idxs.Pairwise (· < ·) → (∀ i ∈ idxs, ct ≤ i) →
      delIndicesFold (x :: xs) (idxs.map Nat.succ) ct =
        x :: delIndicesFold xs idxs ct := by
  induction idxs with
  | nil => intro x xs ct _ _; rfl
  | cons i rest ih =>
      intro x xs ct hp hge
      have hct : ct ≤ i := hge i (by simp)
      have hidx : i + 1 - ct = (i - ct) + 1 := by omega
      simp only [List.map_cons, delIndicesFold, hidx, List.eraseIdx_cons_succ]
      rw [ih x (xs.eraseIdx (i - ct)) (ct + 1) (List.Pairwise.of_cons hp)
        (fun j hj => by
          have := (List.pairwise_cons.mp hp).1 j hj
          omega)]

theorem pyDeleteEmpties_eq_filter :
    ∀ (l : List GVal), pyDeleteEmpties l = l.filter fun g => !(gvalLen g == 0) := by
  intro l
  induction l with
  | nil => rfl
  | cons x xs ih =>
      rw [pyDeleteEmpties, List.length_cons, List.range_succ_eq_map]
      have hsh : ∀ i : Nat,
          ((x :: xs).getD (Nat.succ i) (GVal.raw .null)) =
            xs.getD i (GVal.raw .null) := fun i => rfl
      have hfm :
          (((List.range xs.length).map Nat.succ).filter fun i =>
              gvalLen ((x :: xs).getD i (GVal.raw .null)) = 0) =
            ((List.range xs.length).filter fun i =>
              gvalLen (xs.getD i (GVal.raw .null)) = 0).map Nat.succ := by
        rw [List.filter_map]
        congr 1
      by_cases hx : gvalLen x = 0
      · simp only [List.filter_cons, List.getD_cons_zero, hx, decide_True,
                   if_true, hfm]
        simp only [delIndicesFold, Nat.sub_zero, List.eraseIdx_cons_zero]
        rw [delIndicesFold_succ]
        rw [← pyDeleteEmpties, ih]
        simp [List.filter_cons, hx]
      · simp only [List.filter_cons, List.getD_cons_zero, hx, decide_False,
                   Bool.false_eq_true, if_false, hfm]
        rw [delIndicesFold_shift _ x xs 0
          (List.Pairwise.filter _ (List.pairwise_lt_range _))
          (fun i _ => Nat.zero_le i)]
        rw [← pyDeleteEmpties, ih]
        simp [List.filter_cons, hx]

/-- C10: `PlotlyList.get_data(flatten=False)` is a mutating operation on the
Indexed Node: after every element has produced its (recursively collected)
data, the node deletes from itself exactly those elements whose
post-collection length is zero, keeping the surviving elements in their
relative order (the two-pass index-deletion loop equals a filter); the
concrete instance shows a nested trace list emptied by the collection being
deleted from the node itself. -/
theorem get_data_deletes_emptied_items :
    (∀ (sc : Schema) (elems : List GVal),
      (plistGetData sc elems).2 =
        ((listGetDataGO sc elems).2).filter fun g => !(gvalLen g == 0)) ∧
    (plistGetData plotlySchema [.plist "data" [.pdict "marker" []]]).2 = [] := by
  constructor
  · intro sc elems
    rw [plistGetData]
    simp only [pyDeleteEmpties_eq_filter]
  · simp [plistGetData, listGetDataGO, pdictGetData, dictGetDataGO,
          pyDeleteEmpties, delIndicesFold, gvalLen, jIsEmptyContainer]

theorem strip_idem_aux (sc : Schema) :
    ∀ N : Nat,
      (∀ (n : String) (es es' : List Entry), sizeOf es ≤ N →
        stripDictGO sc n es = .ok es' → stripDictGO sc n es' = .ok es') ∧
      (∀ (elems elems' : List GVal), sizeOf elems ≤ N →
        stripListGO sc elems = .ok elems' → stripListGO sc elems' = .ok elems') := by
  intro N
  induction N using Nat.strong_induction_on with
  | _ N ih =>
    constructor
    · intro n es es' hsz h
      cases es with
      | nil =>
          rw [stripDictGO] at h
          simp at h
          subst h
          rw [stripDictGO]
      | cons e rest =>
          obtain ⟨k, g⟩ := e
          cases g with
          | pdict n2 ces =>
              have hces : sizeOf ces < sizeOf ((k, GVal.pdict n2 ces) :: rest) := by
                simp
                try omega
              have hrest : sizeOf rest < sizeOf ((k, GVal.pdict n2 ces) :: rest) := by
                simp
                try omega
              rw [stripDictGO] at h
              rcases h1 : stripDictGO sc n2 ces with e1 | ces' <;>
                simp only [h1] at h
              · exact absurd h (by simp)
              · rcases h2 : stripDictGO sc n rest with e2 | rest' <;>
                  simp only [h2] at h
                · exact absurd h (by simp)
                · simp at h
                  subst h
                  have i1 := (ih (sizeOf ces) (by omega)).1 n2 ces ces'
                    (Nat.le_refl _) h1
                  have i2 := (ih (sizeOf rest) (by omega)).1 n rest rest'
                    (Nat.le_refl _) h2
                  rw [stripDictGO]
                  simp only [i1, i2]
          | plist n2 elems =>
              have hces : sizeOf elems < sizeOf ((k, GVal.plist n2 elems) :: rest) := by
                simp
                try omega
              have hrest : sizeOf rest < sizeOf ((k, GVal.plist n2 elems) :: rest) := by
                simp
                try omega
              rw [stripDictGO] at h
              rcases h1 : stripListGO sc elems with e1 | elems' <;>
                simp only [h1] at h
              · exact absurd h (by simp)
              · rcases h2 : stripDictGO sc n rest with e2 | rest' <;>
                  simp only [h2] at h
                · exact absurd h (by simp)
                · simp at h
                  subst h
                  have i1 := (ih (sizeOf elems) (by omega)).2 elems elems'
                    (Nat.le_refl _) h1
                  have i2 := (ih (sizeOf rest) (by omega)).1 n rest rest'
                    (Nat.le_refl _) h2
                  rw [stripDictGO]
                  simp only [i1, i2]
          | raw v =>
              have hrest : sizeOf rest < sizeOf ((k, GVal.raw v) :: rest) := by
                simp
                try omega
              rw [stripDictGO] at h
              by_cases hrole : sc.role n k (some v) = "style"
              · rw [if_pos hrole] at h
                by_cases hlc : n = "layout" ∧ k = "autosize"
                · rw [if_pos hlc] at h
                  exact absurd h (by simp)
                · rw [if_neg hlc] at h
                  exact (ih (sizeOf rest) (by omega)).1 n rest es'
                    (Nat.le_refl _) h
              · rw [if_neg hrole] at h
                by_cases hlc : n = "layout" ∧ k = "autosize"
                · rw [if_pos hlc] at h
                  exact (ih (sizeOf rest) (by omega)).1 n rest es'
                    (Nat.le_refl _) h
                · rw [if_neg hlc] at h
                  rcases h2 : stripDictGO sc n rest with e2 | rest' <;>
                    simp only [h2] at h
                  · exact absurd h (by simp)
                  · simp at h
                    subst h
                    have i2 := (ih (sizeOf rest) (by omega)).1 n rest rest'
                      (Nat.le_refl _) h2
                    rw [stripDictGO]
                    rw [if_neg hrole, if_neg hlc]
                    simp only [i2]
    · intro elems elems' hsz h
      cases elems with
      | nil =>
          rw [stripListGO] at h
          simp at h
          subst h
          rw [stripListGO]
      | cons g rest =>
          cases g with
          | pdict n2 ces =>
              have hces : sizeOf ces < sizeOf (GVal.pdict n2 ces :: rest) := by
                simp
                try omega
              have hrest : sizeOf rest < sizeOf (GVal.pdict n2 ces :: rest) := by
                simp
                try omega
              rw [stripListGO] at h
              rcases h1 : stripDictGO sc n2 ces with e1 | ces' <;>
                simp only [h1] at h
              · exact absurd h (by simp)
              · rcases h2 : stripListGO sc rest with e2 | rest' <;>
                  simp only [h2] at h
                · exact absurd h (by simp)
                · simp at h
                  subst h
                  have i1 := (ih (sizeOf ces) (by omega)).1 n2 ces ces'
                    (Nat.le_refl _) h1
                  have i2 := (ih (sizeOf rest) (by omega)).2 rest rest'
                    (Nat.le_refl _) h2
                  rw [stripListGO]
                  simp only [i1, i2]
          | plist n2 elems2 =>
              have hces : sizeOf elems2 < sizeOf (GVal.plist n2 elems2 :: rest) := by
                simp
                try omega
              have hrest : sizeOf rest < sizeOf (GVal.plist n2 elems2 :: rest) := by
                simp
                try omega
              rw [stripListGO] at h
              rcases h1 : stripListGO sc elems2 with e1 | elems2' <;>
                simp only [h1] at h
              · exact absurd h (by simp)
              · rcases h2 : stripListGO sc rest with e2 | rest' <;>
                  simp only [h2] at h
                · exact absurd h (by simp)
                · simp at h
                  subst h
                  have i1 := (ih (sizeOf elems2) (by omega)).2 elems2 elems2'
                    (Nat.le_refl _) h1
                  have i2 := (ih (sizeOf rest) (by omega)).2 rest rest'
                    (Nat.le_refl _) h2
                  rw [stripListGO]
                  simp only [i1, i2]
          | raw v =>
              rw [stripListGO] at h
              exact absurd h (by simp)

/-- C6: `strip_style` is idempotent — on every tree node where it succeeds,
a second call succeeds and returns the identical node state (roles are
resolved by a pure function of node name, key and stored value, so every
entry surviving the first pass survives the second unchanged). -/
theorem strip_style_idempotent (sc : Schema) (g w : GVal)
    (h : stripStyleGO sc g = .ok w) : stripStyleGO sc w = .ok w := by
  cases g with
  | raw v =>
      rw [stripStyleGO] at h
      simp at h
      subst h
      rw [stripStyleGO]
  | pdict n es =>
      rw [stripStyleGO] at h
      rcases h1 : stripDictGO sc n es with e1 | es' <;> simp only [h1] at h
      · exact absurd h (by simp)
      · simp at h
        subst h
        have i1 := (strip_idem_aux sc (sizeOf es)).1 n es es' (Nat.le_refl _) h1
        rw [stripStyleGO]
        simp only [i1]
  | plist n elems =>
      rw [stripStyleGO] at h
      rcases h1 : stripListGO sc elems with e1 | elems' <;> simp only [h1] at h
      · exact absurd h (by simp)
      · simp at h
        subst h
        have i1 := (strip_idem_aux sc (sizeOf elems)).2 elems elems'
          (Nat.le_refl _) h1
        rw [stripStyleGO]
        simp only [i1]

theorem strip_style_idempotent_witness :
    stripStyleGO plotlySchema (.pdict "scatter" [("x", .raw (.i 1))]) =
      .ok (.pdict "scatter" [("x", .raw (.i 1))]) :=
  strip_style_idempotent plotlySchema
    (.pdict "scatter" [("mode", .raw (.s "lines")), ("x", .raw (.i 1))])
    (.pdict "scatter" [("x", .raw (.i 1))])
    (by simp [stripStyleGO, stripDictGO, plotlySchema])

/-- C2 counterexample: for the valid figure input
`{"data": [{"type": "scatter"}]}`, `create("figure", input)` followed by
`get_data(flatten=False)` yields `[{}]` — a sequence, not the mapping the
claim demands, and it retains an empty nested container (the empty trace
contributes `{}` because the deletion loop tests `len(item)`, the trace's
own length, never the emptiness of its extracted data). -/
theorem figure_get_data_not_mapping :
    createGO plotlySchema "figure"
        (.obj [("data", .arr [.obj [("type", .s "scatter")]])]) true =
      .ok (.pdict "figure"
        [("data", .plist "data"
          [.pdict "scatter" [("type", .raw (.s "scatter"))]])]) ∧
    figureGetData plotlySchema
        [("data", .plist "data"
          [.pdict "scatter" [("type", .raw (.s "scatter"))]])] =
      .ok (.arr [.obj []],
        [("data", .plist "data"
          [.pdict "scatter" [("type", .raw (.s "scatter"))]])]) ∧
    jIsMapping (.arr [.obj []]) = false ∧
    jIsEmptyContainer (.obj []) = true := by
  have hObjs : plotlySchema.objects =
      ["figure", "data", "layout", "scatter", "bar", "marker",
       "xaxis", "yaxis"] := rfl
  have hTr : plotlySchema.traceNames = ["scatter", "bar"] := rfl
  have hIAC : ∀ s, plotlySchema.isArrayCreate s = false := fun _ => rfl
  have hAF : plotlySchema.attrs "figure" = ["data", "layout"] := rfl
  have hAS : plotlySchema.attrs "scatter" =
      ["x", "y", "type", "name", "marker", "mode"] := rfl
  have hSF1 : isSrcKey ["data", "layout"] "data" = false := by decide
  have hSS2 : isSrcKey ["x", "y", "type", "name", "marker", "mode"] "type" =
      false := by decide
  have hRF1 : ∀ v, plotlySchema.role "figure" "data" v = "object" :=
    fun _ => rfl
  have hRS3 : ∀ v, plotlySchema.role "scatter" "type" v = "info" :=
    fun _ => rfl
  have hAIA : plotlySchema.attributeIsArray "data" "figure" = true := rfl
  refine ⟨?_, ?_, rfl, rfl⟩
  · simp only [createGO, dictInitFold, dictSetItemGO, dictSetItemStr, dictV2GO,
               dataV2GO, listInitFold, figurePostData, lookupE, lookupJ,
               setEntry, hObjs, hTr, hIAC, hAF, hAS, hSF1, hSS2, hRF1, hRS3,
               hAIA]
    simp [createGO, dictInitFold, dictSetItemGO, dictSetItemStr, dictV2GO,
          dataV2GO, listInitFold, figurePostData, lookupE, lookupJ, setEntry,
          hObjs, hTr, hIAC, hAF, hAS, hSF1, hSS2, hRF1, hRS3, hAIA]
  · simp only [figureGetData, dictGetItem, lookupE, setEntry, plistGetData,
               listGetDataGO, pdictGetData, dictGetDataGO, pyDeleteEmpties,
               delIndicesFold, gvalLen, jIsEmptyContainer, hTr, hRS3]
    simp [figureGetData, dictGetItem, lookupE, setEntry, plistGetData,
          listGetDataGO, pdictGetData, dictGetDataGO, pyDeleteEmpties,
          delIndicesFold, gvalLen, jIsEmptyContainer, hTr, hRS3]

/-- Helper: the value component of the source's get-data traversal is the
pure spec function, jointly for Keyed and Indexed Nodes, by strong
induction on the tree size. -/
theorem getData_value_is_spec (sc : Schema) :
    ∀ N : Nat,
      (∀ (selfName : String) (es : List Entry), sizeOf es ≤ N →
        (pdictGetData sc selfName es).1 = specDataDict sc selfName es) ∧
      (∀ (elems : List GVal), sizeOf elems ≤ N →
        (plistGetData sc elems).1 = specDataList sc elems) := by
  intro N
  induction N using Nat.strong_induction_on with
  | _ N ih =>
    have hD : ∀ (selfName : String) (es : List Entry), sizeOf es ≤ N →
        (dictGetDataGO sc selfName es).1 = specDataEntries sc selfName es := by
      intro selfName es
      induction es with
      | nil =>
          intro _
          rw [dictGetDataGO, specDataEntries]
      | cons e rest ihes =>
          obtain ⟨k, g⟩ := e
          intro hsz
          have hrest : sizeOf rest ≤ N := by
            simp at hsz
            omega
          cases g with
          | pdict n2 ces =>
              have hces : sizeOf ces < N := by
                simp at hsz
                omega
              rw [dictGetDataGO, specDataEntries]
              have hsub := (ih (sizeOf ces) hces).1 n2 ces (Nat.le_refl _)
              simp only [ihes hrest, hsub]
          | plist n2 elems =>
              have hel : sizeOf elems < N := by
                simp at hsz
                omega
              rw [dictGetDataGO, specDataEntries]
              have hsub := (ih (sizeOf elems) hel).2 elems (Nat.le_refl _)
              simp only [ihes hrest, hsub]
          | raw v =>
              rw [dictGetDataGO, specDataEntries]
              by_cases hc : sc.role selfName k (some v) = "data"
                  ∨ (decide (selfName ∈ sc.traceNames) ∧ k = "name")
              · simp only [if_pos hc, ihes hrest]
              · simp only [if_neg hc, ihes hrest]
    have hL : ∀ (elems : List GVal), sizeOf elems ≤ N →
        (listGetDataGO sc elems).1 = specDataElems sc elems := by
      intro elems
      induction elems with
      | nil =>
          intro _
          rw [listGetDataGO, specDataElems]
      | cons g rest ihel =>
          intro hsz
          have hrest : sizeOf rest ≤ N := by
            simp at hsz
            omega
          cases g with
          | pdict n2 ces =>
              have hces : sizeOf ces < N := by
                simp at hsz
                omega
              rw [listGetDataGO, specDataElems]
              have hsub := (ih (sizeOf ces) hces).1 n2 ces (Nat.le_refl _)
              simp only [ihel hrest, hsub]
          | plist n2 elems2 =>
              have hel : sizeOf elems2 < N := by
                simp at hsz
                omega
              rw [listGetDataGO, specDataElems]
              have hsub := (ih (sizeOf elems2) hel).2 elems2 (Nat.le_refl _)
              simp only [ihel hrest, hsub]
          | raw v =>
              rw [listGetDataGO, specDataElems]
              simp only [ihel hrest]
    constructor
    · intro selfName es hsz
      rw [pdictGetData, specDataDict]
      simp only [hD selfName es hsz]
    · intro elems hsz
      rw [plistGetData, specDataList]
      simp only [hL elems hsz]

/-- C2 amended: `Figure.get_data(flatten=False)` yields a plain sequence, not
a mapping.  Universally, for every schema and every figure tree whose `data`
key holds an Indexed Node, the yielded value is exactly the list, in order,
of the elements' role-`data` subsets (`specDataElems`, transcribed from the
spec: a plain value is kept exactly when its role resolves to `data`, or the
node is trace-named and the key is `name`; style- and info-role keys are
therefore absent; a nested container that ends up empty is dropped inside a
trace; a trace whose whole subset is empty still contributes an empty
mapping; `layout` content is not represented at all).  Concretely,
constructing a figure from a raw input whose first trace carries a
data-role `x`, a style-role `mode`, an info-role `type` and a `name`, then
taking `get_data`, keeps `x` (unless empty) and the trace `name`, drops
`mode` and `type`, and the empty second trace contributes `{}` while the
tree is left unchanged. -/
theorem figure_get_data_trace_list :
    (∀ (sc : Schema) (es : List Entry) (n : String) (elems : List GVal),
      lookupE es "data" = some (.plist n elems) →
      ∃ es2, figureGetData sc es =
        .ok (.arr (specDataElems sc elems), es2)) ∧
    (∀ xs : List Int,
      createGO plotlySchema "figure"
          (.obj [("data", .arr [.obj [("x", .arr (xs.map JVal.i)),
                                      ("mode", .s "lines"),
                                      ("name", .s "A"),
                                      ("type", .s "scatter")], .obj []]),
                 ("layout", .obj [("title", .s "t")])]) true =
        .ok (.pdict "figure"
          [("data", .plist "data"
             [.pdict "scatter" [("type", .raw (.s "scatter")),
                                ("x", .raw (.arr (xs.map JVal.i))),
                                ("mode", .raw (.s "lines")),
                                ("name", .raw (.s "A"))],
              .pdict "scatter" [("type", .raw (.s "scatter"))]]),
           ("layout", .pdict "layout" [("title", .raw (.s "t"))])]) ∧
      figureGetData plotlySchema
          [("data", .plist "data"
             [.pdict "scatter" [("type", .raw (.s "scatter")),
                                ("x", .raw (.arr (xs.map JVal.i))),
                                ("mode", .raw (.s "lines")),
                                ("name", .raw (.s "A"))],
              .pdict "scatter" [("type", .raw (.s "scatter"))]]),
           ("layout", .pdict "layout" [("title", .raw (.s "t"))])] =
        .ok (.arr [.obj ((if xs.isEmpty then []
                          else [("x", .arr (xs.map JVal.i))]) ++
                         [("name", .s "A")]), .obj []],
          [("data", .plist "data"
             [.pdict "scatter" [("type", .raw (.s "scatter")),
                                ("x", .raw (.arr (xs.map JVal.i))),
                                ("mode", .raw (.s "lines")),
                                ("name", .raw (.s "A"))],
              .pdict "scatter" [("type", .raw (.s "scatter"))]]),
           ("layout", .pdict "layout" [("title", .raw (.s "t"))])])) := by
  constructor
  · intro sc es n elems h
    refine ⟨setEntry es "data" (.plist n (plistGetData sc elems).2), ?_⟩
    have hv := (getData_value_is_spec sc (sizeOf elems)).2 elems
      (Nat.le_refl _)
    rw [specDataList] at hv
    rw [figureGetData]
    simp only [dictGetItem, h, hv]
  · intro xs
    constructor
    · simp [createGO, dictInitFold, dictSetItemGO, dictSetItemStr,
            layoutSetItemGO, getSubplotKey, trailingDigits, subplotRoot,
            subplotKeyStrings, dictV2GO, dataV2GO, listInitFold,
            figurePostData, lookupE, lookupJ, setEntry, isSrcKey,
            endsWithSrc, dropSrcSuffix, plotlySchema]
    · cases xs with
      | nil =>
          simp [figureGetData, dictGetItem, lookupE, setEntry, plistGetData,
                listGetDataGO, pdictGetData, dictGetDataGO, pyDeleteEmpties,
                delIndicesFold, gvalLen, jIsEmptyContainer, plotlySchema]
      | cons x xt =>
          simp [figureGetData, dictGetItem, lookupE, setEntry, plistGetData,
                listGetDataGO, pdictGetData, dictGetDataGO, pyDeleteEmpties,
                delIndicesFold, gvalLen, jIsEmptyContainer, plotlySchema]

theorem figure_get_data_trace_list_witness :
    ∃ es2, figureGetData plotlySchema
        [("data", .plist "data"
           [.pdict "scatter" [("type", .raw (.s "scatter"))]])] =
      .ok (.arr (specDataElems plotlySchema
             [.pdict "scatter" [("type", .raw (.s "scatter"))]]), es2) :=
  figure_get_data_trace_list.1 plotlySchema
    [("data", .plist "data"
       [.pdict "scatter" [("type", .raw (.s "scatter"))]])]
    "data" [.pdict "scatter" [("type", .raw (.s "scatter"))]] rfl
